import Mathlib

/-!
Shallow embedding of `crates/ethers-signers/src/client.rs`: a transaction
assembly and dispatch pipeline (`Client`) over a JSON-RPC provider and an
optional local signer.  Remote calls are modelled as pure functions on a
`Provider` record; every provider or signer invocation is recorded in an
event log so that claims about which operations run (and in what order,
with which arguments) can be stated and proved.
-/

/-- 20-byte account identifier; the zero value is `0`. -/
abbrev Address := Nat

/-- Transaction hash. -/
abbrev TxHash := Nat

/-- Block reference for historical or pending context. -/
abbrev BlockNumber := Nat

/-- Byte payload. -/
abbrev Bytes := List Nat

/-- Provider-defined error (`P::Error` in the source). -/
abbrev Err := Nat

/-- Local signing failure. -/
abbrev SigningError := Nat

/-- ABI token argument (black box for this development). -/
abbrev Token := Nat

/-- Mirrors the source's `TransactionRequest`: every field optional.
`from_` stands for the source's `from` field (a keyword in Lean). -/
structure TransactionRequest where
  from_ : Option Address
  to_ : Option Address
  gas : Option Nat
  gas_price : Option Nat
  value : Option Nat
  data : Option Bytes
  nonce : Option Nat
deriving DecidableEq

/-- Modelled from the spec: caller-supplied override subset of the intent
fields, used by `call_contract` to seed the request (`Overrides` is not in
the extracted source; spec section 3 describes it as the same optional
fields). -/
structure Overrides where
  from_ : Option Address
  gas : Option Nat
  gas_price : Option Nat
  nonce : Option Nat
  value : Option Nat
deriving DecidableEq

/-- Modelled from the spec: the default (empty) override set leaves every
field unset, mirroring the source's `overrides.unwrap_or_default()`. -/
def Overrides.default : Overrides :=
  { from_ := none, gas := none, gas_price := none, nonce := none, value := none }

/-- Modelled from the spec: signed artifact = intent + content-derived
identifier (`hash`), produced by the signer. -/
structure SignedTransaction where
  tx : TransactionRequest
  hash : TxHash
deriving DecidableEq

/-- Modelled from the spec: the signer collaborator exposes a stable
address and a fallible synchronous signing operation. -/
structure Signer where
  address : Address
  sign_transaction : TransactionRequest → Except SigningError SignedTransaction

/-- Modelled from the spec: the provider collaborator's five operations,
each fallible, with deterministic responses for this embedding. -/
structure Provider where
  get_gas_price : Except Err Nat
  estimate_gas : TransactionRequest → Option BlockNumber → Except Err Nat
  get_transaction_count : Address → Option BlockNumber → Except Err Nat
  send_transaction : TransactionRequest → Except Err TxHash
  send_raw_transaction : SignedTransaction → Except Err TxHash

/-- Mirrors the source's `Client`: a provider reference plus an optional
local signer. -/
structure Client where
  provider : Provider
  signer : Option Signer

/-- One remote or signing operation performed during a call, with the
exact arguments it observed. -/
inductive Event where
  | getGasPrice : Event
  | estimateGas : TransactionRequest → Option BlockNumber → Event
  | getTransactionCount : Address → Option BlockNumber → Event
  | sign : TransactionRequest → Event
  | sendTransaction : TransactionRequest → Event
  | sendRawTransaction : SignedTransaction → Event
deriving DecidableEq

/-- True for the three read-only filling queries. -/
def Event.is_query : Event → Bool
  | .getGasPrice => true
  | .estimateGas _ _ => true
  | .getTransactionCount _ _ => true
  | _ => false

/-- Outcome of `send_transaction`: the source returns `Result<TxHash,
P::Error>` but signs with an unconditional `unwrap()`, so a signing
failure crashes the call; `panicked` models that third outcome. -/
inductive SendResult where
  | ok : TxHash → SendResult
  | error : Err → SendResult
  | panicked : SendResult
deriving DecidableEq

/-- Injects a provider result into `SendResult` (the source returns the
provider's `Result` verbatim on the node-delegated path). -/
def liftRes : Except Err TxHash → SendResult
  | .ok h => .ok h
  | .error e => .error e

/-- Mirrors `Client::address`: the signer's address, or the default (zero)
address when no signer is configured. -/
def Client.address (c : Client) : Address :=
  (c.signer.map Signer.address).getD 0

/-- First step of `fill_transaction`: fill `gas_price` when unset. -/
def Client.fill_gas_price (c : Client) (tx : TransactionRequest) :
    Except Err Unit × TransactionRequest × List Event :=
  match tx.gas_price with
  | some _ => (.ok (), tx, [])
  | none =>
    match c.provider.get_gas_price with
    | .ok p => (.ok (), { tx with gas_price := some p }, [.getGasPrice])
    | .error e => (.error e, tx, [.getGasPrice])

/-- Second step of `fill_transaction`: when `gas` is unset, set `from` to
the client's own address, then estimate gas on the updated request. -/
def Client.fill_gas (c : Client) (tx : TransactionRequest) (block : Option BlockNumber) :
    Except Err Unit × TransactionRequest × List Event :=
  match tx.gas with
  | some _ => (.ok (), tx, [])
  | none =>
    let tx1 := { tx with from_ := some c.address }
    match c.provider.estimate_gas tx1 block with
    | .ok g => (.ok (), { tx1 with gas := some g }, [.estimateGas tx1 block])
    | .error e => (.error e, tx1, [.estimateGas tx1 block])

/-- Third step of `fill_transaction`: fill `nonce` from the transaction
count of the client's own address when unset. -/
def Client.fill_nonce (c : Client) (tx : TransactionRequest) (block : Option BlockNumber) :
    Except Err Unit × TransactionRequest × List Event :=
  match tx.nonce with
  | some _ => (.ok (), tx, [])
  | none =>
    match c.provider.get_transaction_count c.address block with
    | .ok n => (.ok (), { tx with nonce := some n }, [.getTransactionCount c.address block])
    | .error e => (.error e, tx, [.getTransactionCount c.address block])

/-- Mirrors `Client::fill_transaction`: gas price, then gas estimate, then
nonce, aborting at the first provider failure (`?` in the source).  The
returned request is the state of the source's `&mut tx` at exit. -/
def Client.fill_transaction (c : Client) (tx : TransactionRequest) (block : Option BlockNumber) :
    Except Err Unit × TransactionRequest × List Event :=
  match c.fill_gas_price tx with
  | (.error e, tx1, l1) => (.error e, tx1, l1)
  | (.ok _, tx1, l1) =>
    match c.fill_gas tx1 block with
    | (.error e, tx2, l2) => (.error e, tx2, l1 ++ l2)
    | (.ok _, tx2, l2) =>
      match c.fill_nonce tx2 block with
      | (r, tx3, l3) => (r, tx3, l1 ++ l2 ++ l3)

/-- Mirrors `Client::send_transaction`: with no signer, forward the intent
to the provider's own `send_transaction`; otherwise fill, sign (the
source's `unwrap()` becomes `panicked` on a signing error), broadcast the
signed transaction raw, and return the signed transaction's hash. -/
def Client.send_transaction (c : Client) (tx : TransactionRequest) (block : Option BlockNumber) :
    SendResult × List Event :=
  match c.signer with
  | none => (liftRes (c.provider.send_transaction tx), [.sendTransaction tx])
  | some signer =>
    match c.fill_transaction tx block with
    | (.error e, _, log) => (.error e, log)
    | (.ok _, txf, log) =>
      match signer.sign_transaction txf with
      | .error _ => (.panicked, log ++ [.sign txf])
      | .ok stx =>
        match c.provider.send_raw_transaction stx with
        | .error e => (.error e, log ++ [.sign txf, .sendRawTransaction stx])
        | .ok _ => (.ok stx.hash, log ++ [.sign txf, .sendRawTransaction stx])

/-- Mirrors `Client::call_contract`: build the payload from the selector
of the signature and the ABI encoding of the arguments (both black-box
pure functions, passed explicitly), seed the remaining fields from the
overrides, and delegate to `send_transaction`.  -/
def Client.call_contract (c : Client) (sel : String → Bytes) (enc : List Token → Bytes)
    (to_ : Address) (signature : String) (args : List Token)
    (overrides : Option Overrides) (block : Option BlockNumber) :
    SendResult × List Event :=
  let data := sel signature ++ enc args
  let ov := overrides.getD Overrides.default
  let tx : TransactionRequest :=
    { to_ := some to_
      data := some data
      from_ := ov.from_
      gas := ov.gas
      gas_price := ov.gas_price
      nonce := ov.nonce
      value := ov.value }
  c.send_transaction tx block

/-! ### Concrete fixtures used by counterexamples and witnesses -/

/-- Provider fixture whose queries all succeed, with distinct values. -/
def provOK : Provider :=
  { get_gas_price := .ok 7
    estimate_gas := fun _ _ => .ok 21000
    get_transaction_count := fun _ _ => .ok 5
    send_transaction := fun _ => .ok 100
    send_raw_transaction := fun _ => .ok 200 }

/-- Provider fixture whose gas-price query fails. -/
def provGPErr : Provider := { provOK with get_gas_price := .error 5 }

/-- Signer fixture with address `2` whose signing always succeeds with hash `99`. -/
def signer1 : Signer := { address := 2, sign_transaction := fun t => .ok { tx := t, hash := 99 } }

/-- Signer fixture whose signing always fails. -/
def signerBad : Signer := { address := 2, sign_transaction := fun _ => .error 7 }

/-- Signer fixture whose own address is the zero address. -/
def signerZero : Signer := { address := 0, sign_transaction := fun t => .ok { tx := t, hash := 99 } }

/-- Client with no local signer. -/
def cNoSig : Client := { provider := provOK, signer := none }

/-- Client with signer `signer1`. -/
def c1 : Client := { provider := provOK, signer := some signer1 }

/-- Client whose provider fails the gas-price query. -/
def cGPErr : Client := { provider := provGPErr, signer := some signer1 }

/-- Client whose signer fails to sign. -/
def cBad : Client := { provider := provOK, signer := some signerBad }

/-- Client whose signer's address is the zero address. -/
def cZero : Client := { provider := provOK, signer := some signerZero }

/-- Intent with every field unset. -/
def txEmpty : TransactionRequest :=
  { from_ := none, to_ := none, gas := none, gas_price := none
    value := none, data := none, nonce := none }

/-- Intent with caller-supplied `from`, `gas_price`, `nonce` but no `gas`. -/
def txFromSet : TransactionRequest :=
  { from_ := some 1, to_ := none, gas := none, gas_price := some 3
    value := none, data := none, nonce := some 4 }

/-- Intent with every field set. -/
def txFull : TransactionRequest :=
  { from_ := some 1, to_ := some 9, gas := some 21000, gas_price := some 3
    value := some 5, data := some [1, 2], nonce := some 4 }

/-- Intent missing exactly `gas_price`. -/
def txMissGP : TransactionRequest := { txFull with gas_price := none }

/-- Intent missing exactly `nonce`. -/
def txMissNonce : TransactionRequest := { txFull with nonce := none }

/-! ### Step characterization lemmas -/

/-- `fill_gas_price` skips a preset gas price. -/
lemma fill_gas_price_of_some (c : Client) (tx : TransactionRequest) (v : Nat)
    (h : tx.gas_price = some v) : c.fill_gas_price tx = (.ok (), tx, []) := by
  unfold Client.fill_gas_price; rw [h]

/-- `fill_gas_price` on an unset gas price records one query and fills it. -/
lemma fill_gas_price_of_none_ok (c : Client) (tx : TransactionRequest) (p : Nat)
    (h : tx.gas_price = none) (hp : c.provider.get_gas_price = .ok p) :
    c.fill_gas_price tx = (.ok (), { tx with gas_price := some p }, [.getGasPrice]) := by
  unfold Client.fill_gas_price; rw [h, hp]

/-- `fill_gas_price` propagates a failing gas-price query unchanged. -/
lemma fill_gas_price_of_none_err (c : Client) (tx : TransactionRequest) (e : Err)
    (h : tx.gas_price = none) (hp : c.provider.get_gas_price = .error e) :
    c.fill_gas_price tx = (.error e, tx, [.getGasPrice]) := by
  unfold Client.fill_gas_price; rw [h, hp]

/-- `fill_gas` skips a preset gas limit. -/
lemma fill_gas_of_some (c : Client) (tx : TransactionRequest) (block : Option BlockNumber)
    (v : Nat) (h : tx.gas = some v) : c.fill_gas tx block = (.ok (), tx, []) := by
  unfold Client.fill_gas; rw [h]

/-- `fill_gas` on an unset gas limit sets `from`, then estimates on the
updated request. -/
lemma fill_gas_of_none_ok (c : Client) (tx : TransactionRequest) (block : Option BlockNumber)
    (g : Nat) (h : tx.gas = none)
    (hg : c.provider.estimate_gas { tx with from_ := some c.address } block = .ok g) :
    c.fill_gas tx block =
      (.ok (), { tx with from_ := some c.address, gas := some g },
        [.estimateGas { tx with from_ := some c.address } block]) := by
  rw [h] at hg
  simp only [Client.fill_gas, h, hg]

/-- `fill_gas` propagates a failing estimate, with `from` already set. -/
lemma fill_gas_of_none_err (c : Client) (tx : TransactionRequest) (block : Option BlockNumber)
    (e : Err) (h : tx.gas = none)
    (hg : c.provider.estimate_gas { tx with from_ := some c.address } block = .error e) :
    c.fill_gas tx block =
      (.error e, { tx with from_ := some c.address },
        [.estimateGas { tx with from_ := some c.address } block]) := by
  rw [h] at hg
  simp only [Client.fill_gas, h, hg]

/-- `fill_nonce` skips a preset nonce. -/
lemma fill_nonce_of_some (c : Client) (tx : TransactionRequest) (block : Option BlockNumber)
    (v : Nat) (h : tx.nonce = some v) : c.fill_nonce tx block = (.ok (), tx, []) := by
  unfold Client.fill_nonce; rw [h]

/-- `fill_nonce` on an unset nonce queries the count for the client's address. -/
lemma fill_nonce_of_none_ok (c : Client) (tx : TransactionRequest) (block : Option BlockNumber)
    (n : Nat) (h : tx.nonce = none)
    (hn : c.provider.get_transaction_count c.address block = .ok n) :
    c.fill_nonce tx block =
      (.ok (), { tx with nonce := some n }, [.getTransactionCount c.address block]) := by
  unfold Client.fill_nonce; rw [h, hn]

/-- `fill_nonce` propagates a failing count query unchanged. -/
lemma fill_nonce_of_none_err (c : Client) (tx : TransactionRequest) (block : Option BlockNumber)
    (e : Err) (h : tx.nonce = none)
    (hn : c.provider.get_transaction_count c.address block = .error e) :
    c.fill_nonce tx block = (.error e, tx, [.getTransactionCount c.address block]) := by
  unfold Client.fill_nonce; rw [h, hn]

/-! ### Execution-path characterization of `fill_transaction` -/

/-- Successful outcome of the gas-price step: either the field was preset
and nothing happened, or it was queried and filled. -/
def Step1Ok (c : Client) (tx tx1 : TransactionRequest) (l1 : List Event) : Prop :=
  (tx.gas_price ≠ none ∧ tx1 = tx ∧ l1 = [])
  ∨ (∃ p, tx.gas_price = none ∧ c.provider.get_gas_price = .ok p
      ∧ tx1 = { tx with gas_price := some p } ∧ l1 = [Event.getGasPrice])

/-- Successful outcome of the gas-estimation step. -/
def Step2Ok (c : Client) (tx1 : TransactionRequest) (block : Option BlockNumber)
    (tx2 : TransactionRequest) (l2 : List Event) : Prop :=
  (tx1.gas ≠ none ∧ tx2 = tx1 ∧ l2 = [])
  ∨ (∃ g, tx1.gas = none
      ∧ c.provider.estimate_gas { tx1 with from_ := some c.address } block = .ok g
      ∧ tx2 = { tx1 with from_ := some c.address, gas := some g }
      ∧ l2 = [Event.estimateGas { tx1 with from_ := some c.address } block])

/-- Successful outcome of the nonce step. -/
def Step3Ok (c : Client) (tx2 : TransactionRequest) (block : Option BlockNumber)
    (tx3 : TransactionRequest) (l3 : List Event) : Prop :=
  (tx2.nonce ≠ none ∧ tx3 = tx2 ∧ l3 = [])
  ∨ (∃ n, tx2.nonce = none
      ∧ c.provider.get_transaction_count c.address block = .ok n
      ∧ tx3 = { tx2 with nonce := some n }
      ∧ l3 = [Event.getTransactionCount c.address block])

/-- Case analysis on an `Option` producing only hypotheses. -/
lemma option_cases {α : Type} (o : Option α) : o = none ∨ ∃ a, o = some a := by
  cases o
  · exact Or.inl rfl
  · exact Or.inr ⟨_, rfl⟩

/-- Case analysis on an `Except` producing only hypotheses. -/
lemma except_cases {ε α : Type} (x : Except ε α) :
    (∃ e, x = .error e) ∨ (∃ a, x = .ok a) := by
  cases x
  · exact Or.inl ⟨_, rfl⟩
  · exact Or.inr ⟨_, rfl⟩

/-- Every run of `fill_transaction` takes one of four shapes: it fails at
the gas-price query, at the gas estimate, at the nonce query, or every
reached step succeeds. -/
lemma fill_transaction_shapes (c : Client) (tx : TransactionRequest)
    (block : Option BlockNumber) :
    (∃ e, tx.gas_price = none ∧ c.provider.get_gas_price = .error e
      ∧ c.fill_transaction tx block = (.error e, tx, [Event.getGasPrice]))
    ∨ (∃ tx1 l1 e, Step1Ok c tx tx1 l1 ∧ tx1.gas = none
      ∧ c.provider.estimate_gas { tx1 with from_ := some c.address } block = .error e
      ∧ c.fill_transaction tx block = (.error e, { tx1 with from_ := some c.address },
          l1 ++ [Event.estimateGas { tx1 with from_ := some c.address } block]))
    ∨ (∃ tx1 l1 tx2 l2 e, Step1Ok c tx tx1 l1 ∧ Step2Ok c tx1 block tx2 l2
      ∧ tx2.nonce = none ∧ c.provider.get_transaction_count c.address block = .error e
      ∧ c.fill_transaction tx block =
          (.error e, tx2, l1 ++ l2 ++ [Event.getTransactionCount c.address block]))
    ∨ (∃ tx1 l1 tx2 l2 tx3 l3, Step1Ok c tx tx1 l1 ∧ Step2Ok c tx1 block tx2 l2
      ∧ Step3Ok c tx2 block tx3 l3
      ∧ c.fill_transaction tx block = (.ok (), tx3, l1 ++ l2 ++ l3)) := by
  have step1 :
      (∃ e, tx.gas_price = none ∧ c.provider.get_gas_price = .error e
        ∧ c.fill_gas_price tx = (.error e, tx, [Event.getGasPrice]))
      ∨ (∃ tx1 l1, Step1Ok c tx tx1 l1 ∧ c.fill_gas_price tx = (.ok (), tx1, l1)) := by
    rcases option_cases tx.gas_price with hgp | ⟨gp, hgp⟩
    · rcases except_cases c.provider.get_gas_price with ⟨e, hp⟩ | ⟨p, hp⟩
      · exact Or.inl ⟨e, hgp, hp, fill_gas_price_of_none_err c tx e hgp hp⟩
      · exact Or.inr ⟨{ tx with gas_price := some p }, [Event.getGasPrice],
          Or.inr ⟨p, hgp, hp, rfl, rfl⟩, fill_gas_price_of_none_ok c tx p hgp hp⟩
    · exact Or.inr ⟨tx, [], Or.inl ⟨by simp [hgp], rfl, rfl⟩,
        fill_gas_price_of_some c tx gp hgp⟩
  rcases step1 with ⟨e, hgp, hp, h1⟩ | ⟨tx1, l1, hs1, h1⟩
  · exact Or.inl ⟨e, hgp, hp, by simp only [Client.fill_transaction, h1]⟩
  have step2 :
      (∃ e, tx1.gas = none
        ∧ c.provider.estimate_gas { tx1 with from_ := some c.address } block = .error e
        ∧ c.fill_gas tx1 block = (.error e, { tx1 with from_ := some c.address },
            [Event.estimateGas { tx1 with from_ := some c.address } block]))
      ∨ (∃ tx2 l2, Step2Ok c tx1 block tx2 l2 ∧ c.fill_gas tx1 block = (.ok (), tx2, l2)) := by
    rcases option_cases tx1.gas with hg | ⟨g, hg⟩
    · rcases except_cases (c.provider.estimate_gas { tx1 with from_ := some c.address } block)
        with ⟨e, hest⟩ | ⟨g, hest⟩
      · exact Or.inl ⟨e, hg, hest, fill_gas_of_none_err c tx1 block e hg hest⟩
      · exact Or.inr ⟨{ tx1 with from_ := some c.address, gas := some g },
          [Event.estimateGas { tx1 with from_ := some c.address } block],
          Or.inr ⟨g, hg, hest, rfl, rfl⟩, fill_gas_of_none_ok c tx1 block g hg hest⟩
    · exact Or.inr ⟨tx1, [], Or.inl ⟨by simp [hg], rfl, rfl⟩, fill_gas_of_some c tx1 block g hg⟩
  rcases step2 with ⟨e, hg, hest, h2⟩ | ⟨tx2, l2, hs2, h2⟩
  · exact Or.inr (Or.inl ⟨tx1, l1, e, hs1, hg, hest,
      by simp only [Client.fill_transaction, h1, h2]⟩)
  have step3 :
      (∃ e, tx2.nonce = none
        ∧ c.provider.get_transaction_count c.address block = .error e
        ∧ c.fill_nonce tx2 block = (.error e, tx2, [Event.getTransactionCount c.address block]))
      ∨ (∃ tx3 l3, Step3Ok c tx2 block tx3 l3 ∧ c.fill_nonce tx2 block = (.ok (), tx3, l3)) := by
    rcases option_cases tx2.nonce with hn | ⟨n, hn⟩
    · rcases except_cases (c.provider.get_transaction_count c.address block)
        with ⟨e, hcnt⟩ | ⟨n, hcnt⟩
      · exact Or.inl ⟨e, hn, hcnt, fill_nonce_of_none_err c tx2 block e hn hcnt⟩
      · exact Or.inr ⟨{ tx2 with nonce := some n }, [Event.getTransactionCount c.address block],
          Or.inr ⟨n, hn, hcnt, rfl, rfl⟩, fill_nonce_of_none_ok c tx2 block n hn hcnt⟩
    · exact Or.inr ⟨tx2, [], Or.inl ⟨by simp [hn], rfl, rfl⟩, fill_nonce_of_some c tx2 block n hn⟩
  rcases step3 with ⟨e, hn, hcnt, h3⟩ | ⟨tx3, l3, hs3, h3⟩
  · exact Or.inr (Or.inr (Or.inl ⟨tx1, l1, tx2, l2, e, hs1, hs2, hn, hcnt,
      by simp only [Client.fill_transaction, h1, h2, h3]⟩))
  · exact Or.inr (Or.inr (Or.inr ⟨tx1, l1, tx2, l2, tx3, l3, hs1, hs2, hs3,
      by simp only [Client.fill_transaction, h1, h2, h3]⟩))

/-- Field accounting for a successful gas-price step. -/
lemma step1_fields {c : Client} {tx tx1 : TransactionRequest} {l1 : List Event}
    (h : Step1Ok c tx tx1 l1) :
    tx1.from_ = tx.from_ ∧ tx1.to_ = tx.to_ ∧ tx1.gas = tx.gas ∧ tx1.value = tx.value
    ∧ tx1.data = tx.data ∧ tx1.nonce = tx.nonce ∧ tx1.gas_price.isSome = true
    ∧ (∀ v, tx.gas_price = some v → tx1.gas_price = some v)
    ∧ (∀ ev ∈ l1, ev = Event.getGasPrice) := by
  rcases h with ⟨hne, rfl, rfl⟩ | ⟨p, hn, hp, rfl, rfl⟩
  · exact ⟨rfl, rfl, rfl, rfl, rfl, rfl, Option.isSome_iff_ne_none.mpr hne,
      fun v hv => hv, by simp⟩
  · exact ⟨rfl, rfl, rfl, rfl, rfl, rfl, by simp, fun v hv => by simp [hn] at hv, by simp⟩

/-- Field accounting for a successful gas-estimation step. -/
lemma step2_fields {c : Client} {tx1 : TransactionRequest} {block : Option BlockNumber}
    {tx2 : TransactionRequest} {l2 : List Event} (h : Step2Ok c tx1 block tx2 l2) :
    tx2.to_ = tx1.to_ ∧ tx2.gas_price = tx1.gas_price ∧ tx2.value = tx1.value
    ∧ tx2.data = tx1.data ∧ tx2.nonce = tx1.nonce ∧ tx2.gas.isSome = true
    ∧ (∀ v, tx1.gas = some v → tx2.gas = some v)
    ∧ ((tx1.gas ≠ none ∧ tx2.from_ = tx1.from_ ∧ l2 = [])
       ∨ (tx1.gas = none ∧ tx2.from_ = some c.address))
    ∧ (∀ ev ∈ l2, ∃ t, ev = Event.estimateGas t block ∧ t.from_ = some c.address) := by
  rcases h with ⟨hne, rfl, rfl⟩ | ⟨g, hn, hg, rfl, rfl⟩
  · exact ⟨rfl, rfl, rfl, rfl, rfl, Option.isSome_iff_ne_none.mpr hne,
      fun v hv => hv, Or.inl ⟨hne, rfl, rfl⟩, by simp⟩
  · exact ⟨rfl, rfl, rfl, rfl, rfl, by simp, fun v hv => by simp [hn] at hv,
      Or.inr ⟨hn, rfl⟩, by simp⟩

/-- Field accounting for a successful nonce step. -/
lemma step3_fields {c : Client} {tx2 : TransactionRequest} {block : Option BlockNumber}
    {tx3 : TransactionRequest} {l3 : List Event} (h : Step3Ok c tx2 block tx3 l3) :
    tx3.from_ = tx2.from_ ∧ tx3.to_ = tx2.to_ ∧ tx3.gas = tx2.gas
    ∧ tx3.gas_price = tx2.gas_price ∧ tx3.value = tx2.value ∧ tx3.data = tx2.data
    ∧ tx3.nonce.isSome = true
    ∧ (∀ v, tx2.nonce = some v → tx3.nonce = some v)
    ∧ (∀ ev ∈ l3, ev = Event.getTransactionCount c.address block) := by
  rcases h with ⟨hne, rfl, rfl⟩ | ⟨n, hn, hc, rfl, rfl⟩
  · exact ⟨rfl, rfl, rfl, rfl, rfl, rfl, Option.isSome_iff_ne_none.mpr hne,
      fun v hv => hv, by simp⟩
  · exact ⟨rfl, rfl, rfl, rfl, rfl, rfl, by simp, fun v hv => by simp [hn] at hv, by simp⟩

/-! ### C1: caller-set fields under `fill_transaction` -/

/-- C1 counterexample: with a caller-supplied `from` of `1` and `gasLimit`
unset, `fill_transaction` overwrites `from` with the signer's address `2`,
so a caller-set `from` does not survive filling when `gasLimit` is unset. -/
theorem fill_overwrites_from_cex :
    txFromSet.from_ = some 1
    ∧ (Client.fill_transaction c1 txFromSet none).2.1.from_ = some 2 := by decide

/-- C1 (amended): `fill_transaction` never overwrites a caller-set
`gasPrice`, `gasLimit`, or `nonce` and never touches `to`, `value`, or
`data`; `from` is preserved whenever `gasLimit` is already set, but when
`gasLimit` is unset the estimation step (when reached) overwrites `from`
with the client's own address. -/
theorem fill_preserves_caller_fields (c : Client) (tx : TransactionRequest)
    (block : Option BlockNumber) :
    (∀ v, tx.gas_price = some v → (c.fill_transaction tx block).2.1.gas_price = some v)
    ∧ (∀ v, tx.gas = some v → (c.fill_transaction tx block).2.1.gas = some v)
    ∧ (∀ v, tx.nonce = some v → (c.fill_transaction tx block).2.1.nonce = some v)
    ∧ (c.fill_transaction tx block).2.1.to_ = tx.to_
    ∧ (c.fill_transaction tx block).2.1.value = tx.value
    ∧ (c.fill_transaction tx block).2.1.data = tx.data
    ∧ (tx.gas ≠ none → (c.fill_transaction tx block).2.1.from_ = tx.from_)
    ∧ (tx.gas = none → (c.fill_transaction tx block).2.1.from_ = tx.from_
        ∨ (c.fill_transaction tx block).2.1.from_ = some c.address) := by
  rcases fill_transaction_shapes c tx block with
      ⟨e, hgp, hp, heq⟩ | ⟨tx1, l1, e, hs1, hg, hest, heq⟩ |
      ⟨tx1, l1, tx2, l2, e, hs1, hs2, hn, hcnt, heq⟩ |
      ⟨tx1, l1, tx2, l2, tx3, l3, hs1, hs2, hs3, heq⟩
  · rw [heq]; exact ⟨fun v hv => hv, fun v hv => hv, fun v hv => hv, rfl, rfl, rfl,
      fun _ => rfl, fun _ => Or.inl rfl⟩
  · obtain ⟨f1, t1, g1, v1, d1, n1, s1, p1, e1⟩ := step1_fields hs1
    rw [heq]; dsimp only
    have hgas : tx.gas = none := g1 ▸ hg
    refine ⟨fun v hv => p1 v hv, ?_, ?_, t1, v1, d1, ?_, fun _ => Or.inr rfl⟩
    · intro v hv; rw [hgas] at hv; exact absurd hv (by simp)
    · intro v hv; exact n1 ▸ hv
    · intro hne; exact absurd hgas hne
  · obtain ⟨f1, t1, g1, v1, d1, n1, s1, p1, e1⟩ := step1_fields hs1
    obtain ⟨t2, gp2, v2, d2, n2, s2, p2, fr2, e2⟩ := step2_fields hs2
    rw [heq]; dsimp only
    refine ⟨?_, ?_, ?_, t2.trans t1, v2.trans v1, d2.trans d1, ?_, ?_⟩
    · intro v hv; rw [gp2]; exact p1 v hv
    · intro v hv; exact p2 v (g1 ▸ hv)
    · intro v hv; rw [n2]; exact n1 ▸ hv
    · intro hne
      rcases fr2 with ⟨_, hfr, _⟩ | ⟨hgn, _⟩
      · exact hfr.trans f1
      · exact absurd (g1 ▸ hgn) hne
    · intro hnone
      rcases fr2 with ⟨_, hfr, _⟩ | ⟨_, hfr⟩
      · exact Or.inl (hfr.trans f1)
      · exact Or.inr hfr
  · obtain ⟨f1, t1, g1, v1, d1, n1, s1, p1, e1⟩ := step1_fields hs1
    obtain ⟨t2, gp2, v2, d2, n2, s2, p2, fr2, e2⟩ := step2_fields hs2
    obtain ⟨f3, t3, g3, gp3, v3, d3, s3, p3, e3⟩ := step3_fields hs3
    rw [heq]; dsimp only
    refine ⟨?_, ?_, ?_, t3.trans (t2.trans t1), v3.trans (v2.trans v1),
      d3.trans (d2.trans d1), ?_, ?_⟩
    · intro v hv; rw [gp3, gp2]; exact p1 v hv
    · intro v hv; rw [g3]; exact p2 v (g1 ▸ hv)
    · intro v hv; exact p3 v (n2 ▸ (n1 ▸ hv))
    · intro hne
      rcases fr2 with ⟨_, hfr, _⟩ | ⟨hgn, _⟩
      · exact f3.trans (hfr.trans f1)
      · exact absurd (g1 ▸ hgn) hne
    · intro hnone
      rcases fr2 with ⟨_, hfr, _⟩ | ⟨_, hfr⟩
      · exact Or.inl (f3.trans (hfr.trans f1))
      · exact Or.inr (f3.trans hfr)

/-- C1 witness: concrete application of `fill_preserves_caller_fields`:
the caller-set `gas_price` and `nonce` of `txFromSet` survive filling. -/
theorem fill_preserves_caller_fields_witness :
    (Client.fill_transaction c1 txFromSet none).2.1.gas_price = some 3
    ∧ (Client.fill_transaction c1 txFromSet none).2.1.nonce = some 4 :=
  ⟨(fill_preserves_caller_fields c1 txFromSet none).1 3 rfl,
   (fill_preserves_caller_fields c1 txFromSet none).2.2.1 4 rfl⟩

/-! ### C9: address() -/

/-- C9 counterexample: a client whose configured signer has the zero
address: a signer is configured, yet `address()` returns zero, refuting
"zero when and only when no signer is configured". -/
theorem address_zero_with_signer_cex :
    cZero.signer = some signerZero ∧ Client.address cZero = 0 := ⟨rfl, rfl⟩

/-- C9 (amended): `address()` returns the zero address when no signer is
configured and the configured signer's address otherwise (so a zero result
does not imply absence of a signer: a signer whose own address is zero
also yields zero). -/
theorem address_spec (c : Client) :
    (c.signer = none → Client.address c = 0)
    ∧ (∀ s, c.signer = some s → Client.address c = s.address) := by
  constructor
  · intro h; unfold Client.address; rw [h]; rfl
  · intro s h; unfold Client.address; rw [h]; rfl

/-- C9 witness: `address_spec` applied to a signerless client and to one
holding `signer1`. -/
theorem address_spec_witness :
    Client.address cNoSig = 0 ∧ Client.address c1 = signer1.address :=
  ⟨(address_spec cNoSig).1 rfl, (address_spec c1).2 signer1 rfl⟩

/-! ### Log classification helpers -/

/-- Every event logged by `fill_transaction` is a read-only query. -/
lemma fill_log_queries (c : Client) (tx : TransactionRequest) (block : Option BlockNumber) :
    ∀ ev ∈ (c.fill_transaction tx block).2.2, ev.is_query = true := by
  rcases fill_transaction_shapes c tx block with
      ⟨e, hgp, hp, heq⟩ | ⟨tx1, l1, e, hs1, hg, hest, heq⟩ |
      ⟨tx1, l1, tx2, l2, e, hs1, hs2, hn, hcnt, heq⟩ |
      ⟨tx1, l1, tx2, l2, tx3, l3, hs1, hs2, hs3, heq⟩ <;>
    rw [heq] <;> dsimp only <;> intro ev hev
  · simp only [List.mem_singleton] at hev; subst hev; rfl
  · obtain ⟨_, _, _, _, _, _, _, _, e1⟩ := step1_fields hs1
    rcases List.mem_append.mp hev with h | h
    · rw [e1 ev h]; rfl
    · simp only [List.mem_singleton] at h; subst h; rfl
  · obtain ⟨_, _, _, _, _, _, _, _, e1⟩ := step1_fields hs1
    obtain ⟨_, _, _, _, _, _, _, _, e2⟩ := step2_fields hs2
    rcases List.mem_append.mp hev with h | h
    · rcases List.mem_append.mp h with h' | h'
      · rw [e1 ev h']; rfl
      · obtain ⟨t, het, _⟩ := e2 ev h'; rw [het]; rfl
    · simp only [List.mem_singleton] at h; subst h; rfl
  · obtain ⟨_, _, _, _, _, _, _, _, e1⟩ := step1_fields hs1
    obtain ⟨_, _, _, _, _, _, _, _, e2⟩ := step2_fields hs2
    obtain ⟨_, _, _, _, _, _, _, _, e3⟩ := step3_fields hs3
    rcases List.mem_append.mp hev with h | h
    · rcases List.mem_append.mp h with h' | h'
      · rw [e1 ev h']; rfl
      · obtain ⟨t, het, _⟩ := e2 ev h'; rw [het]; rfl
    · rw [e3 ev h]; rfl

/-- With a signer configured, every event logged by `send_transaction` is
a filling query, a signing, or a raw broadcast. -/
lemma send_log_with_signer (c : Client) (s : Signer) (tx : TransactionRequest)
    (block : Option BlockNumber) (hs : c.signer = some s) :
    ∀ ev ∈ (c.send_transaction tx block).2,
      ev.is_query = true ∨ (∃ t, ev = Event.sign t)
      ∨ (∃ stx, ev = Event.sendRawTransaction stx) := by
  intro ev hev
  unfold Client.send_transaction at hev
  rw [hs] at hev
  rcases hfl : c.fill_transaction tx block with ⟨r, txf, log⟩
  rw [hfl] at hev
  have hlog : ∀ e ∈ log, Event.is_query e = true := by
    intro e he
    exact fill_log_queries c tx block e (by rw [hfl]; exact he)
  cases r with
  | error e =>
    dsimp only at hev
    exact Or.inl (hlog ev hev)
  | ok u =>
    dsimp only at hev
    rcases except_cases (s.sign_transaction txf) with ⟨se, hsig⟩ | ⟨stx, hsig⟩
    · rw [hsig] at hev
      dsimp only at hev
      rcases List.mem_append.mp hev with h | h
      · exact Or.inl (hlog ev h)
      · simp only [List.mem_singleton] at h; exact Or.inr (Or.inl ⟨txf, h⟩)
    · rw [hsig] at hev
      dsimp only at hev
      rcases except_cases (c.provider.send_raw_transaction stx) with ⟨e, hraw⟩ | ⟨h2, hraw⟩ <;>
        rw [hraw] at hev <;> dsimp only at hev <;>
        rcases List.mem_append.mp hev with h | h
      · exact Or.inl (hlog ev h)
      · simp only [List.mem_cons, List.not_mem_nil, or_false] at h
        rcases h with h | h
        · exact Or.inr (Or.inl ⟨txf, h⟩)
        · exact Or.inr (Or.inr ⟨stx, h⟩)
      · exact Or.inl (hlog ev h)
      · simp only [List.mem_cons, List.not_mem_nil, or_false] at h
        rcases h with h | h
        · exact Or.inr (Or.inl ⟨txf, h⟩)
        · exact Or.inr (Or.inr ⟨stx, h⟩)

/-- `address` on a signerless client is the zero address. -/
lemma address_none (c : Client) (h : c.signer = none) : Client.address c = 0 := by
  unfold Client.address; rw [h]; rfl

/-- `address` on a client with a signer is that signer's address. -/
lemma address_some (c : Client) (s : Signer) (h : c.signer = some s) :
    Client.address c = s.address := by
  unfold Client.address; rw [h]; rfl

/-! ### C2: node-delegated path iff no signer -/

/-- C2: `send_transaction` takes the node-delegated path exactly when no
signer is configured: with no signer it performs only the provider's own
`send_transaction` on the unmodified intent and returns its result
verbatim (no filling, signing, or raw broadcast occurs); with a signer it
never performs the node-delegated operation. -/
theorem send_delegates_iff_no_signer (c : Client) (tx : TransactionRequest)
    (block : Option BlockNumber) :
    (c.signer = none →
      c.send_transaction tx block
        = (liftRes (c.provider.send_transaction tx), [Event.sendTransaction tx]))
    ∧ (∀ s, c.signer = some s →
      ∀ t, Event.sendTransaction t ∉ (c.send_transaction tx block).2) := by
  constructor
  · intro h
    unfold Client.send_transaction
    rw [h]
  · intro s hs t hmem
    rcases send_log_with_signer c s tx block hs (Event.sendTransaction t) hmem with
      hq | ⟨t', ht'⟩ | ⟨stx, hstx⟩
    · simp [Event.is_query] at hq
    · exact Event.noConfusion ht'
    · exact Event.noConfusion hstx

/-- C2 witness: `send_delegates_iff_no_signer` applied to the signerless
client `cNoSig` and to the signing client `c1` on a concrete intent. -/
theorem send_delegates_iff_no_signer_witness :
    Client.send_transaction cNoSig txEmpty none
      = (liftRes (provOK.send_transaction txEmpty), [Event.sendTransaction txEmpty])
    ∧ Event.sendTransaction txEmpty ∉ (Client.send_transaction c1 txEmpty none).2 :=
  ⟨(send_delegates_iff_no_signer cNoSig txEmpty none).1 rfl,
   (send_delegates_iff_no_signer c1 txEmpty none).2 signer1 rfl txEmpty⟩

/-! ### C4: estimation observes the assigned `from` -/

/-- Any estimate event logged by `fill_transaction` observed a request
whose `from` is the client's own address, at the given block. -/
lemma fill_estimate_event (c : Client) (tx : TransactionRequest) (block : Option BlockNumber)
    (t : TransactionRequest) (b : Option BlockNumber)
    (hmem : Event.estimateGas t b ∈ (c.fill_transaction tx block).2.2) :
    t.from_ = some c.address := by
  rcases fill_transaction_shapes c tx block with
      ⟨e, hgp, hp, heq⟩ | ⟨tx1, l1, e, hs1, hg, hest, heq⟩ |
      ⟨tx1, l1, tx2, l2, e, hs1, hs2, hn, hcnt, heq⟩ |
      ⟨tx1, l1, tx2, l2, tx3, l3, hs1, hs2, hs3, heq⟩ <;> rw [heq] at hmem <;> dsimp only at hmem
  · simp at hmem
  · obtain ⟨_, _, _, _, _, _, _, _, e1⟩ := step1_fields hs1
    rcases List.mem_append.mp hmem with h | h
    · exact absurd (e1 _ h) (by simp)
    · simp only [List.mem_singleton, Event.estimateGas.injEq] at h
      rw [h.1]
  · obtain ⟨_, _, _, _, _, _, _, _, e1⟩ := step1_fields hs1
    obtain ⟨_, _, _, _, _, _, _, _, e2⟩ := step2_fields hs2
    rcases List.mem_append.mp hmem with h | h
    · rcases List.mem_append.mp h with h' | h'
      · exact absurd (e1 _ h') (by simp)
      · obtain ⟨t', het, hf⟩ := e2 _ h'
        rw [Event.estimateGas.injEq] at het
        rw [het.1]; exact hf
    · simp at h
  · obtain ⟨_, _, _, _, _, _, _, _, e1⟩ := step1_fields hs1
    obtain ⟨_, _, _, _, _, _, _, _, e2⟩ := step2_fields hs2
    obtain ⟨_, _, _, _, _, _, _, _, e3⟩ := step3_fields hs3
    rcases List.mem_append.mp hmem with h | h
    · rcases List.mem_append.mp h with h' | h'
      · exact absurd (e1 _ h') (by simp)
      · obtain ⟨t', het, hf⟩ := e2 _ h'
        rw [Event.estimateGas.injEq] at het
        rw [het.1]; exact hf
    · exact absurd (e3 _ h) (by simp)

/-- C4: whenever a signer is configured and gas estimation is performed
during filling, the estimated request's `from` is already the signer's
address. -/
theorem estimate_observes_signer_from (c : Client) (s : Signer) (tx : TransactionRequest)
    (block : Option BlockNumber) (t : TransactionRequest) (b : Option BlockNumber)
    (hs : c.signer = some s)
    (hmem : Event.estimateGas t b ∈ (c.fill_transaction tx block).2.2) :
    t.from_ = some s.address := by
  have h := fill_estimate_event c tx block t b hmem
  rw [address_some c s hs] at h
  exact h

/-- C4 witness: `estimate_observes_signer_from` on the concrete run of
`fill_transaction` for `c1` and `txFromSet`, whose log contains exactly
one estimate event. -/
theorem estimate_observes_signer_from_witness :
    ({ txFromSet with from_ := some 2 } : TransactionRequest).from_ = some signer1.address :=
  estimate_observes_signer_from c1 signer1 txFromSet none
    { txFromSet with from_ := some 2 } none rfl (by decide)

/-! ### C5: the returned hash is the signer's hash -/

/-- C5: with a signer configured, a successful `send_transaction` returns
exactly the `hash` of the `SignedTransaction` the signer produced for the
filled intent; the raw-broadcast response plays no part in the result. -/
theorem returned_hash_is_signed_hash (c : Client) (s : Signer) (tx : TransactionRequest)
    (block : Option BlockNumber) (h : TxHash)
    (hs : c.signer = some s)
    (hok : (c.send_transaction tx block).1 = .ok h) :
    ∃ stx, s.sign_transaction (c.fill_transaction tx block).2.1 = .ok stx
      ∧ h = stx.hash ∧ (c.fill_transaction tx block).1 = .ok () := by
  unfold Client.send_transaction at hok
  rw [hs] at hok
  rcases hfl : c.fill_transaction tx block with ⟨r, txf, log⟩
  rw [hfl] at hok
  cases r with
  | error e =>
    dsimp only at hok
    exact SendResult.noConfusion hok
  | ok u =>
    dsimp only at hok
    rcases except_cases (s.sign_transaction txf) with ⟨se, hsig⟩ | ⟨stx, hsig⟩
    · rw [hsig] at hok
      dsimp only at hok
      exact SendResult.noConfusion hok
    · rw [hsig] at hok
      dsimp only at hok
      rcases except_cases (c.provider.send_raw_transaction stx) with ⟨e, hraw⟩ | ⟨h2, hraw⟩
      · rw [hraw] at hok
        dsimp only at hok
        exact SendResult.noConfusion hok
      · rw [hraw] at hok
        dsimp only at hok
        rw [SendResult.ok.injEq] at hok
        exact ⟨stx, hsig, hok.symm, rfl⟩

/-- C5 witness: `returned_hash_is_signed_hash` on the concrete successful
send of `txFull` through `c1`, whose signer stamps hash `99`. -/
theorem returned_hash_is_signed_hash_witness :
    ∃ stx, signer1.sign_transaction (Client.fill_transaction c1 txFull none).2.1 = .ok stx
      ∧ 99 = stx.hash ∧ (Client.fill_transaction c1 txFull none).1 = .ok () :=
  returned_hash_is_signed_hash c1 signer1 txFull none 99 rfl rfl

/-! ### C6: provider failure during filling -/

/-- C6: with a signer configured, a provider failure during filling makes
`send_transaction` return that same error with no broadcast (raw or
node-delegated) and no signing; filling stopped at the failing query: the
failing field and all later unset fields stay unset, earlier-filled fields
are kept, and the untouched fields are unchanged. -/
theorem fill_error_propagates (c : Client) (s : Signer) (tx : TransactionRequest)
    (block : Option BlockNumber) (e : Err) (txp : TransactionRequest) (log : List Event)
    (hs : c.signer = some s)
    (hf : c.fill_transaction tx block = (.error e, txp, log)) :
    c.send_transaction tx block = (.error e, log)
    ∧ (∀ stx, Event.sendRawTransaction stx ∉ log)
    ∧ (∀ t, Event.sendTransaction t ∉ log)
    ∧ (∀ t, Event.sign t ∉ log)
    ∧ txp.to_ = tx.to_ ∧ txp.value = tx.value ∧ txp.data = tx.data
    ∧ ((tx.gas_price = none ∧ c.provider.get_gas_price = .error e ∧ txp = tx
         ∧ log = [Event.getGasPrice])
       ∨ (tx.gas = none ∧ txp.gas = none ∧ txp.nonce = tx.nonce
         ∧ txp.from_ = some c.address ∧ txp.gas_price.isSome = true
         ∧ (∀ v, tx.gas_price = some v → txp.gas_price = some v)
         ∧ c.provider.estimate_gas txp block = .error e)
       ∨ (tx.nonce = none ∧ txp.nonce = none ∧ txp.gas_price.isSome = true
         ∧ txp.gas.isSome = true
         ∧ (∀ v, tx.gas_price = some v → txp.gas_price = some v)
         ∧ (∀ v, tx.gas = some v → txp.gas = some v)
         ∧ c.provider.get_transaction_count c.address block = .error e)) := by
  have hsend : c.send_transaction tx block = (.error e, log) := by
    unfold Client.send_transaction
    rw [hs, hf]
  have hq : ∀ ev ∈ log, ev.is_query = true := by
    intro ev hev
    exact fill_log_queries c tx block ev (by rw [hf]; exact hev)
  refine ⟨hsend, ?_, ?_, ?_, ?_⟩
  · intro stx hmem; simpa [Event.is_query] using hq _ hmem
  · intro t hmem; simpa [Event.is_query] using hq _ hmem
  · intro t hmem; simpa [Event.is_query] using hq _ hmem
  rcases fill_transaction_shapes c tx block with
      ⟨e1, hgp, hp, heq⟩ | ⟨tx1, l1, e1, hs1, hg, hest, heq⟩ |
      ⟨tx1, l1, tx2, l2, e1, hs1, hs2, hn, hcnt, heq⟩ |
      ⟨tx1, l1, tx2, l2, tx3, l3, hs1, hs2, hs3, heq⟩
  · have hcomb := heq.symm.trans hf
    simp only [Prod.mk.injEq, Except.error.injEq] at hcomb
    obtain ⟨he, htx, hlog⟩ := hcomb
    subst he; subst htx
    exact ⟨rfl, rfl, rfl, Or.inl ⟨hgp, hp, rfl, hlog.symm⟩⟩
  · have hcomb := heq.symm.trans hf
    simp only [Prod.mk.injEq, Except.error.injEq] at hcomb
    obtain ⟨he, htx, hlog⟩ := hcomb
    subst he
    obtain ⟨f1, t1, g1, v1, d1, n1, s1, p1, e1ev⟩ := step1_fields hs1
    refine ⟨?_, ?_, ?_, Or.inr (Or.inl ⟨g1 ▸ hg, ?_, ?_, ?_, ?_, ?_, ?_⟩)⟩
    · rw [← htx]; exact t1
    · rw [← htx]; exact v1
    · rw [← htx]; exact d1
    · rw [← htx]; exact hg
    · rw [← htx]; exact n1
    · rw [← htx]
    · rw [← htx]; exact s1
    · intro v hv; rw [← htx]; exact p1 v hv
    · rw [← htx]; exact hest
  · have hcomb := heq.symm.trans hf
    simp only [Prod.mk.injEq, Except.error.injEq] at hcomb
    obtain ⟨he, htx, hlog⟩ := hcomb
    subst he; subst htx
    obtain ⟨f1, t1, g1, v1, d1, n1, s1, p1, e1ev⟩ := step1_fields hs1
    obtain ⟨t2, gp2, v2, d2, n2, s2, p2, fr2, e2ev⟩ := step2_fields hs2
    refine ⟨t2.trans t1, v2.trans v1, d2.trans d1,
      Or.inr (Or.inr ⟨?_, hn, ?_, s2, ?_, ?_, hcnt⟩)⟩
    · rw [← n1, ← n2]; exact hn
    · rw [gp2]; exact s1
    · intro v hv; rw [gp2]; exact p1 v hv
    · intro v hv; exact p2 v (g1 ▸ hv)
  · have hcomb := heq.symm.trans hf
    simp only [Prod.mk.injEq] at hcomb
    exact absurd hcomb.1 (by simp)

/-- C6 witness: `fill_error_propagates` on the concrete client whose
gas-price query fails with error `5`. -/
theorem fill_error_propagates_witness :
    Client.send_transaction cGPErr txEmpty none = (.error 5, [Event.getGasPrice]) :=
  (fill_error_propagates cGPErr signer1 txEmpty none 5 txEmpty [Event.getGasPrice]
    rfl rfl).1

/-! ### C7: signing failure aborts the call -/

/-- C7: if the signer fails on the filled intent, `send_transaction`
aborts (as the source's `unwrap()` panic) with nothing broadcast — no raw
and no node-delegated send — and no successful hash is ever returned. -/
theorem signing_error_aborts (c : Client) (s : Signer) (tx txf : TransactionRequest)
    (block : Option BlockNumber) (log : List Event) (se : SigningError)
    (hs : c.signer = some s)
    (hf : c.fill_transaction tx block = (.ok (), txf, log))
    (hsig : s.sign_transaction txf = .error se) :
    c.send_transaction tx block = (.panicked, log ++ [Event.sign txf])
    ∧ (∀ h, (c.send_transaction tx block).1 ≠ SendResult.ok h)
    ∧ (∀ stx, Event.sendRawTransaction stx ∉ (c.send_transaction tx block).2)
    ∧ (∀ t, Event.sendTransaction t ∉ (c.send_transaction tx block).2) := by
  have hsend : c.send_transaction tx block = (.panicked, log ++ [Event.sign txf]) := by
    unfold Client.send_transaction
    rw [hs, hf]
    dsimp only
    rw [hsig]
  refine ⟨hsend, ?_, ?_, ?_⟩
  · intro h
    rw [hsend]
    exact fun hcon => SendResult.noConfusion hcon
  · intro stx hmem
    rw [hsend] at hmem
    dsimp only at hmem
    rcases List.mem_append.mp hmem with hm | hm
    · have := fill_log_queries c tx block _ (by rw [hf]; exact hm)
      simp [Event.is_query] at this
    · simp at hm
  · intro t hmem
    rw [hsend] at hmem
    dsimp only at hmem
    rcases List.mem_append.mp hmem with hm | hm
    · have := fill_log_queries c tx block _ (by rw [hf]; exact hm)
      simp [Event.is_query] at this
    · simp at hm

/-- C7 witness: `signing_error_aborts` on the concrete client `cBad`,
whose signer always fails: the already-complete `txFull` needs no filling,
signing fails, and the call panicks with nothing broadcast. -/
theorem signing_error_aborts_witness :
    Client.send_transaction cBad txFull none = (.panicked, [Event.sign txFull]) :=
  (signing_error_aborts cBad signerBad txFull txFull none [] 7 rfl rfl rfl).1

/-! ### C3: exactly one missing field -/

/-- C3 counterexample: with exactly `gasLimit` missing, `fill_transaction`
issues one query, yet `from` (a field other than the missing one) is
changed from `some 1` to the signer's address — refuting "leaves every
other field of the intent (including from) unchanged". -/
theorem fill_one_missing_from_changed_cex :
    txFromSet.gas = none ∧ txFromSet.gas_price = some 3 ∧ txFromSet.nonce = some 4
    ∧ (Client.fill_transaction c1 txFromSet none).2.2.length = 1
    ∧ (Client.fill_transaction c1 txFromSet none).2.1.from_ ≠ txFromSet.from_ := by decide

/-- C3 (amended): when exactly one of `gasPrice`, `gasLimit`, `nonce` is
unset, `fill_transaction` issues exactly the one corresponding query and
leaves every other field unchanged — except that when the missing field is
`gasLimit`, `from` is overwritten with the client's own address. -/
theorem fill_one_missing_single_query (c : Client) (tx : TransactionRequest)
    (block : Option BlockNumber) :
    (tx.gas_price = none → tx.gas ≠ none → tx.nonce ≠ none →
      (c.fill_transaction tx block).2.2 = [Event.getGasPrice]
      ∧ (c.fill_transaction tx block).2.1.from_ = tx.from_
      ∧ (c.fill_transaction tx block).2.1.to_ = tx.to_
      ∧ (c.fill_transaction tx block).2.1.gas = tx.gas
      ∧ (c.fill_transaction tx block).2.1.value = tx.value
      ∧ (c.fill_transaction tx block).2.1.data = tx.data
      ∧ (c.fill_transaction tx block).2.1.nonce = tx.nonce)
    ∧ (tx.gas = none → tx.gas_price ≠ none → tx.nonce ≠ none →
      (c.fill_transaction tx block).2.2
        = [Event.estimateGas { tx with from_ := some c.address } block]
      ∧ (c.fill_transaction tx block).2.1.from_ = some c.address
      ∧ (c.fill_transaction tx block).2.1.to_ = tx.to_
      ∧ (c.fill_transaction tx block).2.1.gas_price = tx.gas_price
      ∧ (c.fill_transaction tx block).2.1.value = tx.value
      ∧ (c.fill_transaction tx block).2.1.data = tx.data
      ∧ (c.fill_transaction tx block).2.1.nonce = tx.nonce)
    ∧ (tx.nonce = none → tx.gas_price ≠ none → tx.gas ≠ none →
      (c.fill_transaction tx block).2.2 = [Event.getTransactionCount c.address block]
      ∧ (c.fill_transaction tx block).2.1.from_ = tx.from_
      ∧ (c.fill_transaction tx block).2.1.to_ = tx.to_
      ∧ (c.fill_transaction tx block).2.1.gas = tx.gas
      ∧ (c.fill_transaction tx block).2.1.gas_price = tx.gas_price
      ∧ (c.fill_transaction tx block).2.1.value = tx.value
      ∧ (c.fill_transaction tx block).2.1.data = tx.data) := by
  refine ⟨?_, ?_, ?_⟩
  · intro hgp hg hn
    obtain ⟨g, hgs⟩ := Option.ne_none_iff_exists'.mp hg
    obtain ⟨n, hns⟩ := Option.ne_none_iff_exists'.mp hn
    rcases except_cases c.provider.get_gas_price with ⟨e, hp⟩ | ⟨p, hp⟩
    · simp only [Client.fill_transaction, fill_gas_price_of_none_err c tx e hgp hp]
      simp
    · simp only [Client.fill_transaction, fill_gas_price_of_none_ok c tx p hgp hp,
        fill_gas_of_some c { tx with gas_price := some p } block g hgs,
        fill_nonce_of_some c { tx with gas_price := some p } block n hns]
      simp
  · intro hg hgp hn
    obtain ⟨p, hps⟩ := Option.ne_none_iff_exists'.mp hgp
    obtain ⟨n, hns⟩ := Option.ne_none_iff_exists'.mp hn
    rcases except_cases (c.provider.estimate_gas { tx with from_ := some c.address } block)
      with ⟨e, hest⟩ | ⟨g, hest⟩
    · simp only [Client.fill_transaction, fill_gas_price_of_some c tx p hps,
        fill_gas_of_none_err c tx block e hg hest]
      simp
    · simp only [Client.fill_transaction, fill_gas_price_of_some c tx p hps,
        fill_gas_of_none_ok c tx block g hg hest,
        fill_nonce_of_some c { tx with from_ := some c.address, gas := some g } block n hns]
      simp
  · intro hn hgp hg
    obtain ⟨p, hps⟩ := Option.ne_none_iff_exists'.mp hgp
    obtain ⟨g, hgs⟩ := Option.ne_none_iff_exists'.mp hg
    rcases except_cases (c.provider.get_transaction_count c.address block)
      with ⟨e, hcnt⟩ | ⟨n, hcnt⟩
    · simp only [Client.fill_transaction, fill_gas_price_of_some c tx p hps,
        fill_gas_of_some c tx block g hgs, fill_nonce_of_none_err c tx block e hn hcnt]
      simp
    · simp only [Client.fill_transaction, fill_gas_price_of_some c tx p hps,
        fill_gas_of_some c tx block g hgs, fill_nonce_of_none_ok c tx block n hn hcnt]
      simp

/-- C3 witness: `fill_one_missing_single_query` on `txMissGP`, which is
missing exactly `gas_price`: a single gas-price query, all other fields
untouched. -/
theorem fill_one_missing_single_query_witness :
    (Client.fill_transaction c1 txMissGP none).2.2 = [Event.getGasPrice]
    ∧ (Client.fill_transaction c1 txMissGP none).2.1.from_ = txMissGP.from_
    ∧ (Client.fill_transaction c1 txMissGP none).2.1.to_ = txMissGP.to_
    ∧ (Client.fill_transaction c1 txMissGP none).2.1.gas = txMissGP.gas
    ∧ (Client.fill_transaction c1 txMissGP none).2.1.value = txMissGP.value
    ∧ (Client.fill_transaction c1 txMissGP none).2.1.data = txMissGP.data
    ∧ (Client.fill_transaction c1 txMissGP none).2.1.nonce = txMissGP.nonce :=
  (fill_one_missing_single_query c1 txMissGP none).1 rfl (by decide) (by decide)

/-! ### C8 and C10: call_contract intent construction -/

/-- C8: `call_contract` builds exactly the intent whose `data` is the
selector of the signature concatenated with the encoding of the
arguments, whose `to` is the recipient and whose remaining fields are
taken field-by-field from the overrides, and delegates it to
`send_transaction` at the same block reference. -/
theorem call_contract_builds_intent (c : Client) (sel : String → Bytes)
    (enc : List Token → Bytes) (to_ : Address) (signature : String) (args : List Token)
    (ov : Overrides) (block : Option BlockNumber) :
    c.call_contract sel enc to_ signature args (some ov) block
      = c.send_transaction
          { to_ := some to_
            data := some (sel signature ++ enc args)
            from_ := ov.from_
            gas := ov.gas
            gas_price := ov.gas_price
            nonce := ov.nonce
            value := ov.value } block := rfl

/-- C10: `call_contract` with no override set behaves exactly as with the
default (empty) override set: the built intent leaves `from`, `gas`,
`gas_price`, `nonce` and `value` all unset. -/
theorem call_contract_none_overrides (c : Client) (sel : String → Bytes)
    (enc : List Token → Bytes) (to_ : Address) (signature : String) (args : List Token)
    (block : Option BlockNumber) :
    c.call_contract sel enc to_ signature args none block
      = c.call_contract sel enc to_ signature args (some Overrides.default) block
    ∧ c.call_contract sel enc to_ signature args none block
      = c.send_transaction
          { to_ := some to_
            data := some (sel signature ++ enc args)
            from_ := none
            gas := none
            gas_price := none
            nonce := none
            value := none } block := ⟨rfl, rfl⟩
